import Mathlib

/-!
Verification development for the JusticeFormsOCR backend core
(the OCR evaluation pipeline and its helpers).

The Python sources under `app/` are shallowly embedded here:
pure functions become Lean functions, float arithmetic is idealized as
exact rational arithmetic (`ℚ`), Python exceptions become `Except`,
and external ML backends (layout/OCR models, PIL image primitives)
become explicit function parameters or abstract size-preserving
operations, mirroring only the contract the code relies on.
-/

namespace JForms

/-- Pixel rectangle, embedding the Python bbox dict
    with keys x1, y1, x2, y2 (`app/processing/layout/base.py`). -/
structure Bbox where
  x1 : Int
  y1 : Int
  x2 : Int
  y2 : Int
deriving DecidableEq, Repr

/-- A detected layout region (`app/processing/layout/base.py`, class Region). -/
structure Region where
  id : Nat
  type : String
  confidence : ℚ
  bbox : Bbox
deriving DecidableEq, Repr

/-- A recognized text line (`app/processing/ocr/base.py`, class TextLine). -/
structure TextLine where
  text : String
  confidence : ℚ
  bbox_in_region : Bbox
deriving DecidableEq, Repr

/-- OCR output for a single region (`app/processing/ocr/base.py`, class OCRResult). -/
structure OCRResult where
  region_id : Nat
  full_text : String
  lines : List TextLine
deriving DecidableEq, Repr

/-- A matched field (`app/models/result.py`, class ExtractedField);
    only the attributes the pipeline core writes are embedded. -/
structure ExtractedField where
  field_name : String
  expected_value : String
  extracted_value : String
  confidence : ℚ
  match_score : ℚ
  is_important : Bool
deriving DecidableEq, Repr

/-- An image, abstracted to its pixel dimensions.  The pipeline claims
    under verification depend only on sizes; PIL pixel content is an
    external collaborator. -/
structure Image where
  width : Nat
  height : Nat
deriving DecidableEq, Repr

/-- PIL `image.crop((x1, y1, x2, y2))`: the crop has size
    (x2 - x1, y2 - y1). -/
def cropBbox (b : Bbox) : Image :=
  ⟨(b.x2 - b.x1).toNat, (b.y2 - b.y1).toNat⟩

/-- Python `" ".join(parts)`. -/
def joinSpace (parts : List String) : String :=
  String.intercalate " " parts

/-- Python `s.lower()`, character-wise (matching CPython on ASCII). -/
def pyLower (s : String) : String :=
  String.mk (s.data.map Char.toLower)

/-- Python `s.strip()`: drop whitespace from both ends. -/
def pyStrip (s : String) : String :=
  String.mk (((s.data.dropWhile Char.isWhitespace).reverse.dropWhile Char.isWhitespace).reverse)

/-- Python `s.split(sep)` for a one-character separator, on char lists. -/
def splitCharAux (sep : Char) : List Char → List Char → List String
  | [], acc => [String.mk acc.reverse]
  | c :: cs, acc =>
    if c = sep then String.mk acc.reverse :: splitCharAux sep cs []
    else splitCharAux sep cs (c :: acc)

/-- Python `s.split(sep)` for a one-character separator. -/
def pySplitOnChar (sep : Char) (s : String) : List String :=
  splitCharAux sep s.data []

/-! ## difflib.SequenceMatcher.ratio

The Matcher calls Python's `difflib.SequenceMatcher(None, a, b).ratio()`.
This is the standard-library Ratcliff/Obershelp implementation with
`isjunk = None`; we embed it faithfully (including the autojunk
popularity filter for second sequences of length >= 200), with float
division idealized as exact rational division. -/

/-- A matching block candidate: indices into both sequences and a size. -/
structure MatchBlock where
  i : Nat
  j : Nat
  size : Nat
deriving DecidableEq, Repr

/-- All indices j with b[j] = c, ascending (the b2j index of difflib). -/
def bPositions (lb : List Char) (c : Char) : List Nat :=
  (List.range lb.length).filter (fun j => lb.getD j ' ' == c)

/-- difflib autojunk: for len(b) >= 200, elements occurring more than
    len(b) / 100 + 1 times are dropped from the b2j index. -/
def isPopular (lb : List Char) (c : Char) : Bool :=
  decide (200 ≤ lb.length) && decide (lb.length / 100 + 1 < (bPositions lb c).length)

/-- The b2j lookup actually used: positions of c in b, empty when c is
    junked by the autojunk heuristic. -/
def b2j (lb : List Char) (c : Char) : List Nat :=
  if isPopular lb c then [] else bPositions lb c

/-- Default-0 lookup in the j2len association list
    (difflib's `j2len.get(j - 1, 0)`). -/
def lookupD (l : List (Nat × Nat)) (k : Nat) : Nat :=
  match l.find? (fun p => p.1 == k) with
  | some p => p.2
  | none => 0

/-- The main dynamic-programming loop of `find_longest_match`:
    scan i over [alo, ahi); for each matching j, the run length ending at
    (i, j) is 1 + the run length ending at (i-1, j-1); keep the first
    (smallest i, then smallest j) strictly longest block. -/
def findLongestMatchCore (la lb : List Char) (alo ahi blo bhi : Nat) : MatchBlock :=
  let step := fun (st : List (Nat × Nat) × MatchBlock) (i : Nat) =>
    let c := la.getD i ' '
    let js := (b2j lb c).filter (fun j => decide (blo ≤ j) && decide (j < bhi))
    let inner := fun (acc : List (Nat × Nat) × MatchBlock) (j : Nat) =>
      let k := if j = 0 then 1 else lookupD st.1 (j - 1) + 1
      let best := if acc.2.size < k then MatchBlock.mk (i + 1 - k) (j + 1 - k) k else acc.2
      ((j, k) :: acc.1, best)
    let res := js.foldl inner ([], st.2)
    (res.1, res.2)
  ((List.range' alo (ahi - alo)).foldl step ([], ⟨alo, blo, 0⟩)).2

/-- One of difflib's block-extension while-loops: grow the block to the
    left while the adjacent characters match and b's character has the
    requested junk status (`expectPop`). -/
def extendLeft (la lb : List Char) (alo blo : Nat) (expectPop : Bool) :
    Nat → MatchBlock → MatchBlock
  | 0, m => m
  | fuel + 1, m =>
    if alo < m.i ∧ blo < m.j ∧ isPopular lb (lb.getD (m.j - 1) ' ') = expectPop ∧
        la.getD (m.i - 1) ' ' = lb.getD (m.j - 1) ' ' then
      extendLeft la lb alo blo expectPop fuel ⟨m.i - 1, m.j - 1, m.size + 1⟩
    else m

/-- The matching right-extension while-loop. -/
def extendRight (la lb : List Char) (ahi bhi : Nat) (expectPop : Bool) :
    Nat → MatchBlock → MatchBlock
  | 0, m => m
  | fuel + 1, m =>
    if m.i + m.size < ahi ∧ m.j + m.size < bhi ∧
        isPopular lb (lb.getD (m.j + m.size) ' ') = expectPop ∧
        la.getD (m.i + m.size) ' ' = lb.getD (m.j + m.size) ' ' then
      extendRight la lb ahi bhi expectPop fuel ⟨m.i, m.j, m.size + 1⟩
    else m

/-- difflib `find_longest_match`: the DP core followed by the four
    extension loops (non-junk left/right, then junk left/right).  The
    fuel bounds each while-loop: the left loops decrement i, stopping
    at alo, so i steps suffice; the right loops increase i + size while
    it stays below ahi, so ahi steps suffice. -/
def findLongestMatch (la lb : List Char) (alo ahi blo bhi : Nat) : MatchBlock :=
  let m := findLongestMatchCore la lb alo ahi blo bhi
  let m := extendLeft la lb alo blo false m.i m
  let m := extendRight la lb ahi bhi false ahi m
  let m := extendLeft la lb alo blo true m.i m
  extendRight la lb ahi bhi true ahi m

/-- Total number of matched characters: the sum of the sizes of all
    matching blocks found by difflib's recursive `get_matching_blocks`
    subdivision.  `fuel` bounds the recursion depth; the top-level call
    supplies enough fuel for the subdivision to run to completion. -/
def matchedTotal (la lb : List Char) : Nat → Nat → Nat → Nat → Nat → Nat
  | 0, _, _, _, _ => 0
  | fuel + 1, alo, ahi, blo, bhi =>
    let m := findLongestMatch la lb alo ahi blo bhi
    if m.size = 0 then 0
    else
      matchedTotal la lb fuel alo m.i blo m.j + m.size +
        matchedTotal la lb fuel (m.i + m.size) ahi (m.j + m.size) bhi

/-- `difflib.SequenceMatcher(None, a, b).ratio()`:
    2 * matches / (len(a) + len(b)), and 1.0 when both are empty. -/
def sequenceRatio (a b : String) : ℚ :=
  let la := a.toList
  let lb := b.toList
  let total := la.length + lb.length
  if total = 0 then 1
  else
    let m := matchedTotal la lb (total + 1) 0 la.length 0 lb.length
    (2 * (m : ℚ)) / (total : ℚ)

/-! ## Field Matcher / Scorer
(`app/services/ocr_pipeline.py`, `OCRPipelineService._match_fields`
and `_calculate_accuracy`). -/

/-- The similarity used by the Matcher: a case-insensitive
    `SequenceMatcher` ratio (`expected_value.lower()` against
    `candidate.lower()`). -/
def fieldScore (expected candidate : String) : ℚ :=
  sequenceRatio (pyLower expected) (pyLower candidate)

/-- Average line confidence used for the full-text candidate:
    `sum(l.confidence for l in lines) / max(len(lines), 1)`. -/
def avgConfidence (lines : List TextLine) : ℚ :=
  (lines.map (·.confidence)).sum / (max lines.length 1 : ℚ)

/-- The Matcher's running best candidate
    (locals best_match / best_score / best_confidence). -/
structure BestState where
  bestMatch : String
  bestScore : ℚ
  bestConfidence : ℚ
deriving DecidableEq, Repr

/-- One comparison step of `_match_fields`: replace the running best
    only when the new score is strictly greater. -/
def considerCand (expected : String) (st : BestState) (text : String) (conf : ℚ) : BestState :=
  let score := fieldScore expected text
  if st.bestScore < score then ⟨text, score, conf⟩ else st

/-- The inner search of `_match_fields` for one expected value: every
    line of every OCR result, then that result's full text, in order. -/
def matchOne (expected : String) (ocr_results : List OCRResult) : BestState :=
  ocr_results.foldl
    (fun st r =>
      let st := r.lines.foldl (fun st l => considerCand expected st l.text l.confidence) st
      considerCand expected st r.full_text (avgConfidence r.lines))
    ⟨"", 0, 0⟩

/-- `OCRPipelineService._match_fields`: one ExtractedField per expected
    (field_name, expected_value) pair, in dict iteration order, flagged
    important. -/
def matchFields (expected_values : List (String × String)) (ocr_results : List OCRResult) :
    List ExtractedField :=
  expected_values.map (fun p =>
    let best := matchOne p.2 ocr_results
    ⟨p.1, p.2, best.bestMatch, best.bestConfidence, best.bestScore, true⟩)

/-- `OCRPipelineService._calculate_accuracy`: 0.0 for no fields,
    otherwise the mean match_score over important fields, falling back
    to all fields when none is flagged important. -/
def calculateAccuracy (extracted_fields : List ExtractedField) : ℚ :=
  if extracted_fields.isEmpty then 0
  else
    let important := extracted_fields.filter (·.is_important)
    let important := if important.isEmpty then extracted_fields else important
    (important.map (·.match_score)).sum / (important.length : ℚ)

/-- The candidate stream `_match_fields` scans for one expected field,
    paired with the confidence each candidate would contribute:
    each line of each result, then the result's full text. -/
def candidatesOf (ocr_results : List OCRResult) : List (String × ℚ) :=
  ocr_results.flatMap (fun r =>
    r.lines.map (fun l => (l.text, l.confidence)) ++ [(r.full_text, avgConfidence r.lines)])

/-- The highest candidate score for one expected value, floored at the
    loop's initial best_score of 0.0. -/
def maxScore (expected : String) (ocr_results : List OCRResult) : ℚ :=
  ((candidatesOf ocr_results).map (fun c => fieldScore expected c.1)).foldl max 0

/-- Arithmetic mean of the match scores of a field list. -/
def meanScore (fields : List ExtractedField) : ℚ :=
  (fields.map (·.match_score)).sum / (fields.length : ℚ)

/-! ## Numeric helpers for the Python adapters -/

/-- Python `int(x)`: truncation toward zero. -/
def pyInt (q : ℚ) : Int :=
  if 0 ≤ q then ⌊q⌋ else ⌈q⌉

/-- Python `round` to the nearest integer, half to even. -/
def roundHalfEven (q : ℚ) : Int :=
  if q - ⌊q⌋ = 1 / 2 then (if 2 ∣ ⌊q⌋ then ⌊q⌋ else ⌊q⌋ + 1) else round q

/-- Python `round(x, 4)` (float rounding idealized over ℚ). -/
def round4 (q : ℚ) : ℚ :=
  (roundHalfEven (q * 10000) : ℚ) / 10000

/-- Python `min` over a nonempty list (0 for the never-taken empty case). -/
def listMin (l : List ℚ) : ℚ :=
  l.foldl min (l.headD 0)

/-- Python `max` over a nonempty list (0 for the never-taken empty case). -/
def listMax (l : List ℚ) : ℚ :=
  l.foldl max (l.headD 0)

/-- Python `min` over a nonempty list of ints. -/
def listMinI (l : List Int) : Int :=
  l.foldl min (l.headD 0)

/-- Python `max` over a nonempty list of ints. -/
def listMaxI (l : List Int) : Int :=
  l.foldl max (l.headD 0)

/-! ## OCR engine adapters
(`app/processing/ocr/*.py`).  Each engine-specific model invocation is
an external collaborator, embedded as a function parameter; a parameter
returning `Except` models an invocation that can raise.  Each engine's
line-accumulation loop body is named as its own step function. -/

/-- One EasyOCR detection tuple (bbox_points, text, confidence). -/
structure EasyDetection where
  points : List (ℚ × ℚ)
  text : String
  confidence : ℚ
deriving DecidableEq, Repr

/-- Loop body of `EasyOCREngine._process_cropped_image`: one TextLine
    per detection, its text also appended to full_text_parts. -/
def easyocrStep (acc : List TextLine × List String) (d : EasyDetection) :
    List TextLine × List String :=
  let xs := d.points.map (·.1)
  let ys := d.points.map (·.2)
  (acc.1 ++ [⟨d.text, round4 d.confidence,
      ⟨pyInt (listMin xs), pyInt (listMin ys), pyInt (listMax xs), pyInt (listMax ys)⟩⟩],
   acc.2 ++ [d.text])

/-- `EasyOCREngine._process_cropped_image`. -/
def easyocrProcessCropped (dets : List EasyDetection) (region_id : Nat) : OCRResult :=
  let res := dets.foldl easyocrStep ([], [])
  ⟨region_id, joinSpace res.2, res.1⟩

/-- `EasyOCREngine.extract_text` on the success path: one result per
    region, via the default crop helper `extract_from_region`. -/
def easyocrExtractText (readtext : Image → List EasyDetection) (_image : Image)
    (regions : List Region) : List OCRResult :=
  regions.map (fun r => easyocrProcessCropped (readtext (cropBbox r.bbox)) r.id)

/-- `EasyOCREngine.extract_text` with a model invocation that can raise:
    the loop has no handler, so the first raise aborts the whole call. -/
def easyocrExtractTextE (readtext : Image → Except String (List EasyDetection)) (image : Image) :
    List Region → Except String (List OCRResult)
  | [] => .ok []
  | r :: rest =>
    match readtext (cropBbox r.bbox) with
    | .error e => .error e
    | .ok dets =>
      match easyocrExtractTextE readtext image rest with
      | .error e => .error e
      | .ok results => .ok (easyocrProcessCropped dets r.id :: results)

/-- One row of `pytesseract.image_to_data(..., Output.DICT)`. -/
structure TessWord where
  text : String
  conf : Int
  line_num : Nat
  left : Int
  top : Int
  width : Int
  height : Int
deriving DecidableEq, Repr

/-- Sorted distinct keys of the tesseract line_groups dict
    (`sorted(line_groups.keys())`). -/
def sortedKeys (l : List Nat) : List Nat :=
  l.dedup.mergeSort (fun a b => decide (a ≤ b))

/-- Per-line-number emission step of
    `TesseractEngine._process_cropped_image`: one TextLine per line
    group with space-joined words, averaged 0-1 confidence and the
    enclosing box. -/
def tesseractStep (fws : List TessWord) (acc : List TextLine × List String) (k : Nat) :
    List TextLine × List String :=
  let g := fws.filter (fun w => w.line_num == k)
  let line_text := joinSpace (g.map (fun w => pyStrip w.text))
  let avg_conf := (g.map (fun w => (w.conf : ℚ))).sum / (g.length : ℚ) / 100
  (acc.1 ++ [⟨line_text, round4 avg_conf,
      ⟨listMinI (g.map (·.left)), listMinI (g.map (·.top)),
       listMaxI (g.map (fun w => w.left + w.width)),
       listMaxI (g.map (fun w => w.top + w.height))⟩⟩],
   acc.2 ++ [line_text])

/-- `TesseractEngine._process_cropped_image`: keep words with nonempty
    stripped text and conf >= 0, group them by line_num, and emit one
    TextLine per line number in ascending order. -/
def tesseractProcessCropped (words : List TessWord) (region_id : Nat) : OCRResult :=
  let fws := words.filter (fun w => decide (pyStrip w.text ≠ "") && decide (0 ≤ w.conf))
  let keys := sortedKeys (fws.map (·.line_num))
  let res := keys.foldl (tesseractStep fws) ([], [])
  ⟨region_id, joinSpace res.2, res.1⟩

/-- `TesseractEngine.extract_text` with a model invocation that can
    raise: no handler, so the first raise aborts the whole call. -/
def tesseractExtractTextE (image_to_data : Image → Except String (List TessWord)) (image : Image) :
    List Region → Except String (List OCRResult)
  | [] => .ok []
  | r :: rest =>
    match image_to_data (cropBbox r.bbox) with
    | .error e => .error e
    | .ok ws =>
      match tesseractExtractTextE image_to_data image rest with
      | .error e => .error e
      | .ok results => .ok (tesseractProcessCropped ws r.id :: results)

/-- Per-segment step of `TrOCREngine._process_cropped_image`: crop the
    (y_start, y_end) line, skip thin crops and empty recognitions, keep
    recognized lines at the fixed 0.9 confidence. -/
def trocrStep (recognize : Image → String) (image : Image)
    (acc : List TextLine × List String) (seg : Nat × Nat) : List TextLine × List String :=
  let lineImg := Image.mk image.width (seg.2 - seg.1)
  if lineImg.height < 5 then acc
  else
    let text := recognize lineImg
    if text = "" then acc
    else (acc.1 ++ [⟨text, 9 / 10, ⟨0, (seg.1 : Int), (image.width : Int), (seg.2 : Int)⟩⟩],
          acc.2 ++ [text])

/-- `TrOCREngine._process_cropped_image`: the splitter's (y_start,
    y_end) segments come in as data. -/
def trocrProcessCropped (recognize : Image → String) (lineRegions : List (Nat × Nat))
    (image : Image) (region_id : Nat) : OCRResult :=
  let res := lineRegions.foldl (trocrStep recognize image) ([], [])
  ⟨region_id, joinSpace res.2, res.1⟩

/-- A MinerU content block as consumed by the engine (content and bbox
    read with getattr defaults). -/
structure MinerUBlock where
  content : Option String
  type : String
  bbox : Option (List ℚ)
deriving DecidableEq, Repr

/-- Per-content-line step of `MinerUEngine._process_cropped_image`:
    stripped nonempty lines at the fixed 0.9 confidence. -/
def mineruLineStep (bb : Bbox) (acc : List TextLine × List String) (lt : String) :
    List TextLine × List String :=
  let t := pyStrip lt
  if t = "" then acc
  else (acc.1 ++ [⟨t, 9 / 10, bb⟩], acc.2 ++ [t])

/-- Per-block step of `MinerUEngine._process_cropped_image`: skip empty
    content, convert the normalized bbox to pixels, then split the
    content into lines. -/
def mineruBlockStep (image : Image) (acc : List TextLine × List String) (b : MinerUBlock) :
    List TextLine × List String :=
  let content := b.content.getD ""
  if content = "" then acc
  else
    let bb : Bbox :=
      match b.bbox with
      | some l =>
        if l.length = 4 then
          ⟨pyInt (l.getD 0 0 * image.width), pyInt (l.getD 1 0 * image.height),
           pyInt (l.getD 2 0 * image.width), pyInt (l.getD 3 0 * image.height)⟩
        else ⟨0, 0, (image.width : Int), (image.height : Int)⟩
      | none => ⟨0, 0, (image.width : Int), (image.height : Int)⟩
    (pySplitOnChar (Char.ofNat 10) (pyStrip content)).foldl (mineruLineStep bb) acc

/-- `MinerUEngine._process_cropped_image`: a raising `two_step_extract`
    is downgraded to an empty OCRResult for the region (the engine's
    try/except fallback); otherwise the blocks are accumulated. -/
def mineruProcessCropped (blocks : Except String (List MinerUBlock)) (image : Image)
    (region_id : Nat) : OCRResult :=
  match blocks with
  | .error _ => ⟨region_id, "", []⟩
  | .ok bs =>
    let res := bs.foldl (mineruBlockStep image) ([], [])
    ⟨region_id, joinSpace res.2, res.1⟩

/-- `MinerUEngine.extract_text`: every region is processed;
    per-region failures never escape `_process_cropped_image`. -/
def mineruExtractText (two_step_extract : Image → Except String (List MinerUBlock)) (_image : Image)
    (regions : List Region) : List OCRResult :=
  regions.map (fun r =>
    let cropped := cropBbox r.bbox
    mineruProcessCropped (two_step_extract cropped) cropped r.id)

/-- `GotOCREngine._process_cropped_image`: full_text is the decoded,
    stripped model output itself; lines are its stripped nonempty
    newline-separated segments at the fixed 0.95 confidence. -/
def gotOcrProcessCropped (recognize : Image → String) (image : Image) (region_id : Nat) : OCRResult :=
  let full_text := recognize image
  let lines :=
    if full_text = "" then []
    else
      (pySplitOnChar (Char.ofNat 10) full_text).foldl
        (fun acc lt =>
          let t := pyStrip lt
          if t = "" then acc
          else acc ++ [TextLine.mk t (95 / 100) ⟨0, 0, (image.width : Int), (image.height : Int)⟩])
        []
  ⟨region_id, full_text, lines⟩

/-- One Surya recognition line. -/
structure SuryaTextLine where
  text : String
  confidence : ℚ
  bbox : List ℚ
deriving DecidableEq, Repr

/-- Per-line step of `SuryaOCREngine._process_cropped_image`. -/
def suryaStep (acc : List TextLine × List String) (tl : SuryaTextLine) :
    List TextLine × List String :=
  (acc.1 ++ [⟨tl.text, round4 tl.confidence,
      ⟨pyInt (tl.bbox.getD 0 0), pyInt (tl.bbox.getD 1 0),
       pyInt (tl.bbox.getD 2 0), pyInt (tl.bbox.getD 3 0)⟩⟩],
   acc.2 ++ [tl.text])

/-- `SuryaOCREngine._process_cropped_image`: lines of the first page
    result, lockstep with full_text parts. -/
def suryaProcessCropped (pages : List (List SuryaTextLine)) (region_id : Nat) : OCRResult :=
  let res :=
    match pages with
    | [] => ([], [])
    | p :: _ => p.foldl suryaStep ([], [])
  ⟨region_id, joinSpace res.2, res.1⟩

/-- One PaddleOCR 3.x page result. -/
structure PaddleResult where
  rec_texts : List String
  rec_scores : List ℚ
  rec_boxes : Option (List (List Int))
deriving DecidableEq, Repr

/-- Per-index step of `PaddleOCREngine._process_cropped_image`: skip
    empty texts, score 0.0 beyond the score list, box when available. -/
def paddleIndexStep (res : PaddleResult) (acc : List TextLine × List String) (i : Nat) :
    List TextLine × List String :=
  let text := res.rec_texts.getD i ""
  if text = "" then acc
  else
    let confidence : ℚ := if i < res.rec_scores.length then res.rec_scores.getD i 0 else 0
    let bb : Bbox :=
      match res.rec_boxes with
      | some boxes =>
        if i < boxes.length then
          let box := boxes.getD i []
          ⟨box.getD 0 0, box.getD 1 0, box.getD 2 0, box.getD 3 0⟩
        else ⟨0, 0, 0, 0⟩
      | none => ⟨0, 0, 0, 0⟩
    (acc.1 ++ [⟨text, round4 confidence, bb⟩], acc.2 ++ [text])

/-- Per-result step of `PaddleOCREngine._process_cropped_image`. -/
def paddleResultStep (acc : List TextLine × List String) (res : PaddleResult) :
    List TextLine × List String :=
  (List.range res.rec_texts.length).foldl (paddleIndexStep res) acc

/-- `PaddleOCREngine._process_cropped_image`. -/
def paddleProcessCropped (results : List PaddleResult) (region_id : Nat) : OCRResult :=
  let res := results.foldl paddleResultStep ([], [])
  ⟨region_id, joinSpace res.2, res.1⟩

/-! ## Layout detector adapters
(`app/processing/layout/*.py`).  Raw model detections come in as data;
each adapter builds regions, sorts them by its canonical order (Python's
stable sort) and reassigns ids 1..N in list order. -/

/-- The id-reassignment loop shared by all detectors:
    `for i, region in enumerate(regions): region.id = i + 1`. -/
def reassignIds : Nat → List Region → List Region
  | _, [] => []
  | i, r :: rs => ⟨i + 1, r.type, r.confidence, r.bbox⟩ :: reassignIds (i + 1) rs

/-- One DocLayout-YOLO detection box (xyxy coordinates, confidence,
    class id). -/
structure YoloBox where
  x1 : ℚ
  y1 : ℚ
  x2 : ℚ
  y2 : ℚ
  conf : ℚ
  cls : Nat
deriving DecidableEq, Repr

/-- One DocLayout-YOLO prediction result: a class-name table and boxes. -/
structure YoloResult where
  names : List (Nat × String)
  boxes : List YoloBox
deriving DecidableEq, Repr

/-- `result.names.get(class_id, f"class_{class_id}")`. -/
def yoloClassName (names : List (Nat × String)) (class_id : Nat) : String :=
  match names.lookup class_id with
  | some n => n
  | none => "class_" ++ toString class_id

/-- `DocLayoutYOLODetector.detect`: regions from all result boxes,
    sorted by descending confidence, ids reassigned 1..N. -/
def doclayoutDetect (results : List YoloResult) : List Region :=
  let regions := results.flatMap (fun res =>
    res.boxes.enum.map (fun p =>
      Region.mk (p.1 + 1) (yoloClassName res.names p.2.cls) p.2.conf
        ⟨pyInt p.2.x1, pyInt p.2.y1, pyInt p.2.x2, pyInt p.2.y2⟩))
  let sorted := regions.mergeSort (fun a b => decide (b.confidence ≤ a.confidence))
  reassignIds 0 sorted

/-- One DocTR word detection (normalized coordinates and confidence). -/
structure DocTRWord where
  xmin : ℚ
  ymin : ℚ
  xmax : ℚ
  ymax : ℚ
  confidence : ℚ
deriving DecidableEq, Repr

/-- The stable top-to-bottom / left-to-right order used by the DocTR and
    Surya detectors: sort key (bbox y1, bbox x1). -/
def topLeftLE (a b : Region) : Bool :=
  decide (a.bbox.y1 < b.bbox.y1) ||
    (decide (a.bbox.y1 = b.bbox.y1) && decide (a.bbox.x1 ≤ b.bbox.x1))

/-- `DocTRLayoutDetector.detect`: words of the first page scaled to
    pixels, sorted top-to-bottom then left-to-right, ids reassigned. -/
def doctrDetect (pages : List (List DocTRWord)) (image : Image) : List Region :=
  let regions :=
    match pages with
    | [] => []
    | words :: _ =>
      words.enum.map (fun (p : Nat × DocTRWord) =>
        Region.mk (p.1 + 1) "text" p.2.confidence
          ⟨pyInt (p.2.xmin * image.width), pyInt (p.2.ymin * image.height),
           pyInt (p.2.xmax * image.width), pyInt (p.2.ymax * image.height)⟩)
  let sorted := regions.mergeSort topLeftLE
  reassignIds 0 sorted

/-- One Surya layout detection (bbox, confidence, label). -/
structure SuryaBboxObj where
  bbox : List ℚ
  confidence : ℚ
  label : String
deriving DecidableEq, Repr

/-- `SuryaLayoutDetector.detect`: bboxes of the first page result,
    sorted top-to-bottom then left-to-right, ids reassigned. -/
def suryaDetect (pages : List (List SuryaBboxObj)) : List Region :=
  let regions :=
    match pages with
    | [] => []
    | bbs :: _ =>
      bbs.enum.map (fun (p : Nat × SuryaBboxObj) =>
        Region.mk (p.1 + 1) p.2.label p.2.confidence
          ⟨pyInt (p.2.bbox.getD 0 0), pyInt (p.2.bbox.getD 1 0),
           pyInt (p.2.bbox.getD 2 0), pyInt (p.2.bbox.getD 3 0)⟩)
  let sorted := regions.mergeSort topLeftLE
  reassignIds 0 sorted

/-! ## Pipeline Orchestrator
(`app/services/ocr_pipeline.py` and `app/routers/tests.py`). -/

/-- The shape of `process_document_full_text`'s returned ocr_results
    dict: the engine's to_dict payload plus the added full_text and
    text_regions keys. -/
structure FullTextOcrDict where
  num_regions : Nat
  regions : List OCRResult
  full_text : String
  text_regions : List (String × ℚ)
deriving DecidableEq, Repr

/-- The per-document result dict of `process_document_full_text`. -/
structure FullTextRunResult where
  layout_regions : List Region
  layout_method : String
  ocr_results : FullTextOcrDict
  extracted_fields : List ExtractedField
  overall_accuracy : ℚ
deriving DecidableEq, Repr

/-- The pseudo-region `process_document_full_text` synthesizes:
    `Region(id=0, type="full_page", confidence=1.0,
    bbox={0, 0, image.width, image.height})`. -/
def fullPageRegion (image : Image) : Region :=
  ⟨0, "full_page", 1, ⟨0, 0, (image.width : Int), (image.height : Int)⟩⟩

/-- `OCRPipelineService.process_document_full_text`: run the OCR engine
    on the single full-page pseudo-region; no layout detection, no field
    matching, accuracy pinned at 0.0. -/
def processDocumentFullText (extract_text : Image → List Region → List OCRResult)
    (image : Image) : FullTextRunResult :=
  let ocr_results_list := extract_text image [fullPageRegion image]
  let full_text := joinSpace (ocr_results_list.map (·.full_text))
  let text_regions := ocr_results_list.flatMap (fun r => r.lines.map (fun l => (l.text, l.confidence)))
  { layout_regions := []
    layout_method := "none (full-text OCR)"
    ocr_results :=
      { num_regions := ocr_results_list.length
        regions := ocr_results_list
        full_text := full_text
        text_regions := text_regions }
    extracted_fields := []
    overall_accuracy := 0 }

/-- A document inside a batch, reduced to its identity; per-document
    processing itself is passed in as a function. -/
structure Doc where
  id : String
deriving DecidableEq, Repr

/-- `OCRPipelineService.process_batch`: documents strictly in order,
    each successful result persisted before the next document starts; a
    raising detection/extraction (the Except value) propagates at once.
    Returns the persisted (document id, result) pairs and the
    propagated error, if any. -/
def processBatch {ρ : Type} (processDoc : Doc → Except String ρ) :
    List Doc → List (String × ρ) × Option String
  | [] => ([], none)
  | d :: rest =>
    match processDoc d with
    | .error e => ([], some e)
    | .ok r =>
      let res := processBatch processDoc rest
      ((d.id, r) :: res.1, res.2)

/-- Terminal run status written by the caller (`app/models/test_run.py`
    TestStatus, as used in `run_test_background`). -/
inductive RunStatus where
  | completed : RunStatus
  | failed : String → RunStatus
deriving DecidableEq, Repr

/-- `run_test_background`: drive the batch; on any exception record the
    run as failed with the exception text, otherwise completed.  Returns
    the terminal status together with what was persisted. -/
def runTestBackground {ρ : Type} (processDoc : Doc → Except String ρ) (docs : List Doc) :
    RunStatus × List (String × ρ) :=
  let res := processBatch processDoc docs
  match res.2 with
  | some e => (RunStatus.failed e, res.1)
  | none => (RunStatus.completed, res.1)

/-! ## Scan Simulator
(`app/services/scan_simulator.py`).  PIL primitives are external; each
is embedded as a size-preserving operation on the abstract image, which
is exactly how the code uses them (blend of equal-size layers, rotate
with expand=False, point-wise enhancement, blur, clipped noise). -/

/-- One preset of scan-degradation parameters. -/
structure ScanParams where
  rotation_range : ℚ
  noise_amount : ℚ
  blur_radius : ℚ
  brightness_range : ℚ × ℚ
  contrast_range : ℚ × ℚ
  paper_tone : Nat × Nat × Nat
deriving DecidableEq, Repr

/-- The light preset. -/
def lightParams : ScanParams :=
  ⟨3 / 2, 3, 3 / 10, (95 / 100, 105 / 100), (95 / 100, 105 / 100), (245, 240, 230)⟩

/-- The medium preset. -/
def mediumParams : ScanParams :=
  ⟨3, 8, 7 / 10, (85 / 100, 115 / 100), (85 / 100, 115 / 100), (235, 228, 215)⟩

/-- The heavy preset. -/
def heavyParams : ScanParams :=
  ⟨5, 15, 6 / 5, (75 / 100, 125 / 100), (75 / 100, 130 / 100), (225, 215, 200)⟩

/-- The PRESETS table. -/
def scanPresets : List (String × ScanParams) :=
  [("light", lightParams), ("medium", mediumParams), ("heavy", heavyParams)]

/-- `PRESETS.get(preset, PRESETS["medium"])`. -/
def presetParams (preset : String) : ScanParams :=
  match scanPresets.lookup preset with
  | some p => p
  | none => mediumParams

/-- `Image.blend(img, tone_layer, alpha)` on equal-size layers keeps the
    size. -/
def pilBlend (img : Image) (_tone : Nat × Nat × Nat) (_alpha : ℚ) : Image :=
  ⟨img.width, img.height⟩

/-- `img.rotate(angle, expand=False, fillcolor=...)` keeps the size. -/
def pilRotate (img : Image) (_angle : ℚ) : Image :=
  ⟨img.width, img.height⟩

/-- `ImageEnhance.Brightness(img).enhance(factor)` is point-wise. -/
def pilBrightness (img : Image) (_factor : ℚ) : Image :=
  ⟨img.width, img.height⟩

/-- `ImageEnhance.Contrast(img).enhance(factor)` is point-wise. -/
def pilContrast (img : Image) (_factor : ℚ) : Image :=
  ⟨img.width, img.height⟩

/-- `img.filter(ImageFilter.GaussianBlur(radius))` keeps the size. -/
def pilGaussianBlur (img : Image) (_radius : ℚ) : Image :=
  ⟨img.width, img.height⟩

/-- `np.clip(arr + noise, 0, 255)` then `Image.fromarray` keeps the
    array shape, hence the size. -/
def addGaussianNoise (img : Image) (_amount : ℚ) : Image :=
  ⟨img.width, img.height⟩

/-- `ScanSimulatorService.apply_scan_effects`.  `uniform a b` stands for
    `random.uniform(a, b)`, threaded in as data so the pipeline stays a
    pure function of its random draws. -/
def applyScanEffects (uniform : ℚ → ℚ → ℚ) (image : Image) (preset : String) : Image :=
  let params := presetParams preset
  let img : Image := ⟨image.width, image.height⟩
  let img := pilBlend img params.paper_tone (8 / 100)
  let angle := uniform (-params.rotation_range) params.rotation_range
  let img := pilRotate img angle
  let img := pilBrightness img (uniform params.brightness_range.1 params.brightness_range.2)
  let img := pilContrast img (uniform params.contrast_range.1 params.contrast_range.2)
  let img :=
    if 0 < params.blur_radius then pilGaussianBlur img (uniform 0 params.blur_radius) else img
  if 0 < params.noise_amount then addGaussianNoise img params.noise_amount else img

/-! ## Synthetic Document Generator value selection
(`app/services/synthetic_generator.py`,
`SyntheticGeneratorService._get_synthetic_value`).  `random.choice` is
threaded in as a function from the consulted pool to the chosen value,
so which pool is consulted is what the embedding records. -/

/-- The field-type-keyed value pools (FIELD_TYPE_DATA). -/
def fieldTypeData : List (String × List String) :=
  [("numeric_short",
    ["123", "456", "789", "012", "345", "678", "901", "234",
     "5678", "9012", "1234", "4567", "8901", "42", "307", "88"]),
   ("text_short",
    ["TX", "CA", "NY", "FL", "IL", "PA", "OH", "GA",
     "Civil", "Criminal", "Family", "Probate", "Juvenile",
     "Plaintiff", "Defendant", "Appellant", "Respondent",
     "Dallas", "Harris", "Travis", "Bexar", "Tarrant", "El Paso"]),
   ("sentence",
    ["The defendant failed to appear at the scheduled hearing.",
     "Plaintiff requests summary judgment on all counts.",
     "Motion to dismiss is hereby granted.",
     "The court finds sufficient evidence to proceed.",
     "All parties have been duly notified of the hearing date.",
     "Defendant is ordered to pay restitution to the plaintiff.",
     "The case is hereby continued to the next available date.",
     "Witness testimony corroborates the plaintiff's claims."]),
   ("full_name",
    ["John Smith", "Jane Doe", "Robert Johnson", "Maria Garcia",
     "Michael Brown", "Emily Davis", "David Wilson", "Sarah Miller",
     "James Taylor", "Jennifer Anderson", "William Thomas", "Linda Martinez",
     "Charles Jordan", "Patricia Williams", "Daniel Lee", "Angela Robinson",
     "Christopher Harris", "Amanda Clark", "Matthew Wright", "Stephanie King"]),
   ("day_month",
    ["January 15", "February 20", "March 10", "April 5",
     "May 25", "June 30", "July 4", "August 15",
     "September 1", "October 12", "November 28", "December 25",
     "January 3", "March 22", "June 17", "September 30"]),
   ("2_digit_year", ["20", "21", "22", "23", "24", "25", "26"]),
   ("4_digit_year", ["2020", "2021", "2022", "2023", "2024", "2025", "2026"])]

/-- The legacy name-keyed pools (DEFAULT_SYNTHETIC_DATA), in dict
    insertion order. -/
def defaultSyntheticData : List (String × List String) :=
  [("defendant_name", (fieldTypeData.lookup "full_name").getD []),
   ("plaintiff_name",
    ["ABC Corporation", "XYZ Inc.", "State of Texas", "City of Dallas",
     "First National Bank", "Johnson & Associates", "Smith Holdings LLC"]),
   ("case_number",
    ["2024-CV-001234", "2024-CV-005678", "2023-CV-009012", "2024-CR-003456",
     "DC-2024-0001", "DC-2024-0042", "CC-2024-1234", "JP-2024-5678"]),
   ("date",
    ["January 15, 2024", "February 20, 2024", "March 10, 2024",
     "April 5, 2024", "May 25, 2024", "June 30, 2024"]),
   ("default", (fieldTypeData.lookup "text_short").getD [])]

/-- Python substring test `needle in haystack`. -/
def strContains (haystack needle : String) : Bool :=
  (List.range (haystack.toList.length + 1)).any
    (fun i => needle.toList.isPrefixOf (haystack.toList.drop i))

/-- The legacy scan: the first DEFAULT_SYNTHETIC_DATA key that is a
    substring of the lowercased field name. -/
def legacyLookup (field_lower : String) : Option (List String) :=
  (defaultSyntheticData.find? (fun p => strContains field_lower p.1)).map (·.2)

/-- The branches of `_get_synthetic_value` after the custom_options
    check: a truthy field_type that keys FIELD_TYPE_DATA, then the
    legacy name-substring scan, then the default pool. -/
def getSyntheticValueTyped (choice : List String → String) (field_name : String)
    (field_type : Option String) : String :=
  let fromType :=
    match field_type with
    | some ft => if ft ≠ "" then fieldTypeData.lookup ft else none
    | none => none
  match fromType with
  | some pool => choice pool
  | none =>
    match legacyLookup (pyLower field_name) with
    | some values => choice values
    | none => choice ((defaultSyntheticData.lookup "default").getD [])

/-- `SyntheticGeneratorService._get_synthetic_value`:
    a truthy custom_options list wins, then a known field_type pool,
    then the legacy name-substring scan, then the default pool. -/
def getSyntheticValue (choice : List String → String) (field_name : String)
    (custom_options : Option (List String)) (field_type : Option String) : String :=
  match custom_options with
  | some opts =>
    if opts ≠ [] then choice opts
    else getSyntheticValueTyped choice field_name field_type
  | none => getSyntheticValueTyped choice field_name field_type

/-! ## Concrete fixtures used to exercise the pipeline -/

/-- An OCR result whose only line shares no character with the expected
    value "a": every matcher candidate scores 0.0. -/
def zeroScoreResult : OCRResult :=
  ⟨1, "b", [⟨"b", 1 / 2, ⟨0, 0, 1, 1⟩⟩]⟩

/-- An OCR result whose only line equals the expected value "abc". -/
def exactMatchResult : OCRResult :=
  ⟨1, "abc", [⟨"abc", 9 / 10, ⟨0, 0, 1, 1⟩⟩]⟩

/-- A per-document processor whose detection raises on the second
    document of a three-document batch. -/
def demoProcessDoc : Doc → Except String String :=
  fun d => if d.id = "doc2" then Except.error "detection failed" else Except.ok d.id

/-! ## Helper lemmas -/

theorem reassignIds_map_id (n : Nat) (l : List Region) :
    (reassignIds n l).map (·.id) = List.range' (n + 1) l.length := by
  induction l generalizing n with
  | nil => simp [reassignIds]
  | cons r rs ih => simp [reassignIds, List.range'_succ, ih]

theorem reassignIds_length (n : Nat) (l : List Region) :
    (reassignIds n l).length = l.length := by
  induction l generalizing n with
  | nil => rfl
  | cons r rs ih => simp [reassignIds, ih]

theorem not_mem_range'_one (n : Nat) : 0 ∉ List.range' 1 n := by
  intro h
  have := List.mem_range'_1.mp h
  omega

theorem le_foldl_max (l : List ℚ) (a : ℚ) : a ≤ l.foldl max a := by
  induction l generalizing a with
  | nil => exact le_refl a
  | cons x xs ih => exact le_trans (le_max_left a x) (ih (max a x))

theorem mem_le_foldl_max (l : List ℚ) (a : ℚ) (x : ℚ) : x ∈ l → x ≤ l.foldl max a := by
  induction l generalizing a with
  | nil =>
    intro hx
    cases hx
  | cons y ys ih =>
    intro hx
    rw [List.foldl_cons]
    rcases List.mem_cons.mp hx with h | h
    · subst h
      exact le_trans (le_max_right a x) (le_foldl_max ys (max a x))
    · exact ih (max a y) h

theorem considerCand_bestScore (expected : String) (st : BestState) (text : String) (conf : ℚ) :
    (considerCand expected st text conf).bestScore = max st.bestScore (fieldScore expected text) := by
  unfold considerCand
  rcases lt_or_ge st.bestScore (fieldScore expected text) with h | h
  · simp [h, max_eq_right (le_of_lt h)]
  · simp [not_lt.mpr h, max_eq_left h]

theorem foldl_considerCand_bestScore (expected : String) (cs : List (String × ℚ)) (st : BestState) :
    ((cs.foldl (fun st c => considerCand expected st c.1 c.2) st).bestScore) =
      (cs.map (fun c => fieldScore expected c.1)).foldl max st.bestScore := by
  induction cs generalizing st with
  | nil => rfl
  | cons c cs ih =>
    simp only [List.foldl_cons, List.map_cons, ih, considerCand_bestScore]

theorem foldl_considerCand_stay (expected : String) (cs : List (String × ℚ)) (st : BestState)
    (h : ∀ c ∈ cs, fieldScore expected c.1 ≤ st.bestScore) :
    cs.foldl (fun st c => considerCand expected st c.1 c.2) st = st := by
  induction cs with
  | nil => rfl
  | cons c cs ih =>
    have hc : considerCand expected st c.1 c.2 = st := by
      unfold considerCand
      simp [not_lt.mpr (h c (List.mem_cons_self c cs))]
    simp only [List.foldl_cons, hc]
    exact ih (fun c' hc' => h c' (List.mem_cons_of_mem c hc'))

theorem foldl_considerCand_found (expected : String) (cs : List (String × ℚ)) (st : BestState)
    (h : st.bestScore < (cs.map (fun c => fieldScore expected c.1)).foldl max st.bestScore) :
    ∃ j c, cs.get? j = some c ∧
      fieldScore expected c.1 =
        (cs.map (fun c => fieldScore expected c.1)).foldl max st.bestScore ∧
      (∀ k c', k < j → cs.get? k = some c' →
        fieldScore expected c'.1 <
          (cs.map (fun c => fieldScore expected c.1)).foldl max st.bestScore) ∧
      cs.foldl (fun st c => considerCand expected st c.1 c.2) st =
        ⟨c.1, fieldScore expected c.1, c.2⟩ := by
  induction cs generalizing st with
  | nil => exact absurd h (lt_irrefl _)
  | cons c0 cs ih =>
    set s0 := fieldScore expected c0.1 with hs0
    have hstep : (considerCand expected st c0.1 c0.2).bestScore = max st.bestScore s0 :=
      considerCand_bestScore expected st c0.1 c0.2
    by_cases hrest :
        (considerCand expected st c0.1 c0.2).bestScore <
          (cs.map (fun c => fieldScore expected c.1)).foldl max
            (considerCand expected st c0.1 c0.2).bestScore
    · obtain ⟨j, c, hget, hscore, hbefore, hfold⟩ := ih (considerCand expected st c0.1 c0.2) hrest
      have hM : (cs.map (fun c => fieldScore expected c.1)).foldl max
            (considerCand expected st c0.1 c0.2).bestScore =
          ((c0 :: cs).map (fun c => fieldScore expected c.1)).foldl max st.bestScore := by
        simp [hstep]
      refine ⟨j + 1, c, hget, by rw [← hM]; exact hscore, ?_, by simpa using hfold⟩
      intro k c' hk hget'
      rw [← hM]
      match k, hget' with
      | 0, hget' =>
        have hc' : c0 = c' := by simpa using hget'
        subst hc'
        calc fieldScore expected c0.1 ≤ max st.bestScore s0 := le_max_right _ _
          _ = (considerCand expected st c0.1 c0.2).bestScore := hstep.symm
          _ < _ := hrest
      | k' + 1, hget' =>
        exact hbefore k' c' (by omega) (by simpa using hget')
    · have hle := le_foldl_max (cs.map (fun c => fieldScore expected c.1))
        (considerCand expected st c0.1 c0.2).bestScore
      have heq : (cs.map (fun c => fieldScore expected c.1)).foldl max
            (considerCand expected st c0.1 c0.2).bestScore =
          (considerCand expected st c0.1 c0.2).bestScore :=
        le_antisymm (not_lt.mp hrest) hle
      have hM : ((c0 :: cs).map (fun c => fieldScore expected c.1)).foldl max st.bestScore =
          max st.bestScore s0 := by
        simp only [List.map_cons, List.foldl_cons]
        rw [← hstep, heq]
      have hs0M : st.bestScore < max st.bestScore s0 := by
        have := h
        rw [hM] at this
        exact this
      have hupdate : considerCand expected st c0.1 c0.2 = ⟨c0.1, s0, c0.2⟩ := by
        unfold considerCand
        have : st.bestScore < s0 := by
          rcases max_cases st.bestScore s0 with ⟨he, _⟩ | ⟨he, hle2⟩
          · rw [he] at hs0M
            exact absurd hs0M (lt_irrefl _)
          · rw [he] at hs0M
            exact hs0M
        simp [← hs0, this]
      have hstay : cs.foldl (fun st c => considerCand expected st c.1 c.2)
          (considerCand expected st c0.1 c0.2) = considerCand expected st c0.1 c0.2 := by
        apply foldl_considerCand_stay
        intro c hc
        have : fieldScore expected c.1 ≤
            (cs.map (fun c => fieldScore expected c.1)).foldl max
              (considerCand expected st c0.1 c0.2).bestScore :=
          mem_le_foldl_max _ _ _ (List.mem_map_of_mem _ hc)
        rw [heq] at this
        exact this
      refine ⟨0, c0, rfl, ?_, ?_, ?_⟩
      · rw [hM]
        rcases max_cases st.bestScore s0 with ⟨he, _⟩ | ⟨he, _⟩
        · rw [he] at hs0M
          exact absurd hs0M (lt_irrefl _)
        · exact he.symm
      · intro k c' hk _
        exact absurd hk (Nat.not_lt_zero k)
      · rw [List.foldl_cons, hstay, hupdate, hs0]

theorem matchOne_eq_foldl (expected : String) (results : List OCRResult) :
    matchOne expected results =
      (candidatesOf results).foldl (fun st c => considerCand expected st c.1 c.2) ⟨"", 0, 0⟩ := by
  unfold matchOne candidatesOf
  generalize (⟨"", 0, 0⟩ : BestState) = init
  induction results generalizing init with
  | nil => rfl
  | cons r rs ih =>
    simp only [List.foldl_cons, List.flatMap_cons, List.foldl_append, List.foldl_map,
      List.foldl_nil, ih]

/-- A loop step that appends text lines and full_text parts in lockstep:
    whatever it adds to the line list, it adds the same texts to the
    parts list. -/
def IsLockstep {α : Type} (step : List TextLine × List String → α → List TextLine × List String) :
    Prop :=
  ∀ acc x, ∃ delta : List TextLine,
    step acc x = (acc.1 ++ delta, acc.2 ++ delta.map (·.text))

theorem foldl_lockstep {α : Type}
    (step : List TextLine × List String → α → List TextLine × List String)
    (h : IsLockstep step) (l : List α) (acc : List TextLine × List String) :
    ∃ delta : List TextLine,
      l.foldl step acc = (acc.1 ++ delta, acc.2 ++ delta.map (·.text)) := by
  induction l generalizing acc with
  | nil => exact ⟨[], by simp⟩
  | cons x xs ih =>
    obtain ⟨d1, h1⟩ := h acc x
    obtain ⟨d2, h2⟩ := ih (step acc x)
    refine ⟨d1 ++ d2, ?_⟩
    rw [List.foldl_cons, h2, h1]
    simp [List.append_assoc]

theorem foldl_lockstep_parts {α : Type}
    (step : List TextLine × List String → α → List TextLine × List String)
    (h : IsLockstep step) (l : List α) :
    (l.foldl step ([], [])).2 = (l.foldl step ([], [])).1.map (·.text) := by
  obtain ⟨d, hd⟩ := foldl_lockstep step h l ([], [])
  rw [hd]
  simp

theorem easyocrStep_lockstep : IsLockstep easyocrStep := by
  intro acc d
  exact ⟨[_], rfl⟩

theorem tesseractStep_lockstep (fws : List TessWord) : IsLockstep (tesseractStep fws) := by
  intro acc k
  exact ⟨[_], rfl⟩

theorem trocrStep_lockstep (recognize : Image → String) (image : Image) :
    IsLockstep (trocrStep recognize image) := by
  intro acc seg
  simp only [trocrStep]
  by_cases h5 : (Image.mk image.width (seg.2 - seg.1)).height < 5
  · rw [if_pos h5]
    exact ⟨[], by simp⟩
  · rw [if_neg h5]
    by_cases hemp : recognize (Image.mk image.width (seg.2 - seg.1)) = ""
    · rw [if_pos hemp]
      exact ⟨[], by simp⟩
    · rw [if_neg hemp]
      exact ⟨[_], rfl⟩

theorem mineruLineStep_lockstep (bb : Bbox) : IsLockstep (mineruLineStep bb) := by
  intro acc lt
  simp only [mineruLineStep]
  by_cases h : pyStrip lt = ""
  · rw [if_pos h]
    exact ⟨[], by simp⟩
  · rw [if_neg h]
    exact ⟨[_], rfl⟩

theorem mineruBlockStep_lockstep (image : Image) : IsLockstep (mineruBlockStep image) := by
  intro acc b
  simp only [mineruBlockStep]
  by_cases hc : b.content.getD "" = ""
  · rw [if_pos hc]
    exact ⟨[], by simp⟩
  · rw [if_neg hc]
    exact foldl_lockstep _ (mineruLineStep_lockstep _) _ acc

theorem suryaStep_lockstep : IsLockstep suryaStep := by
  intro acc tl
  exact ⟨[_], rfl⟩

theorem paddleIndexStep_lockstep (res : PaddleResult) : IsLockstep (paddleIndexStep res) := by
  intro acc i
  simp only [paddleIndexStep]
  by_cases ht : res.rec_texts.getD i "" = ""
  · rw [if_pos ht]
    exact ⟨[], by simp⟩
  · rw [if_neg ht]
    exact ⟨[_], rfl⟩

theorem paddleResultStep_lockstep : IsLockstep paddleResultStep := by
  intro acc res
  simp only [paddleResultStep]
  exact foldl_lockstep _ (paddleIndexStep_lockstep res) _ acc

/-! Lemmas deriving the space-join invariant for each engine from the
    lockstep shape of its accumulation loop. -/

theorem easyocrProcessCropped_join (dets : List EasyDetection) (region_id : Nat) :
    (easyocrProcessCropped dets region_id).full_text =
      joinSpace ((easyocrProcessCropped dets region_id).lines.map (·.text)) := by
  have h := foldl_lockstep_parts easyocrStep easyocrStep_lockstep dets
  simp [easyocrProcessCropped, h]

theorem tesseractProcessCropped_join (words : List TessWord) (region_id : Nat) :
    (tesseractProcessCropped words region_id).full_text =
      joinSpace ((tesseractProcessCropped words region_id).lines.map (·.text)) := by
  have h : ∀ (fws : List TessWord) (keys : List Nat),
      (keys.foldl (tesseractStep fws) ([], [])).2 =
        (keys.foldl (tesseractStep fws) ([], [])).1.map (·.text) :=
    fun fws keys => foldl_lockstep_parts _ (tesseractStep_lockstep fws) keys
  simp [tesseractProcessCropped, h]

theorem trocrProcessCropped_join (recognize : Image → String) (lineRegions : List (Nat × Nat))
    (image : Image) (region_id : Nat) :
    (trocrProcessCropped recognize lineRegions image region_id).full_text =
      joinSpace ((trocrProcessCropped recognize lineRegions image region_id).lines.map (·.text)) := by
  have h := foldl_lockstep_parts _ (trocrStep_lockstep recognize image) lineRegions
  simp [trocrProcessCropped, h]

theorem mineruProcessCropped_join (blocks : Except String (List MinerUBlock)) (image : Image)
    (region_id : Nat) :
    (mineruProcessCropped blocks image region_id).full_text =
      joinSpace ((mineruProcessCropped blocks image region_id).lines.map (·.text)) := by
  match blocks with
  | .error e => rfl
  | .ok bs =>
    have h := foldl_lockstep_parts _ (mineruBlockStep_lockstep image) bs
    simp [mineruProcessCropped, h]

theorem suryaProcessCropped_join (pages : List (List SuryaTextLine)) (region_id : Nat) :
    (suryaProcessCropped pages region_id).full_text =
      joinSpace ((suryaProcessCropped pages region_id).lines.map (·.text)) := by
  match pages with
  | [] => rfl
  | p :: rest =>
    have h := foldl_lockstep_parts suryaStep suryaStep_lockstep p
    simp [suryaProcessCropped, h]

theorem paddleProcessCropped_join (results : List PaddleResult) (region_id : Nat) :
    (paddleProcessCropped results region_id).full_text =
      joinSpace ((paddleProcessCropped results region_id).lines.map (·.text)) := by
  have h := foldl_lockstep_parts paddleResultStep paddleResultStep_lockstep results
  simp [paddleProcessCropped, h]

theorem easyocrExtractTextE_error (readtext : Image → Except String (List EasyDetection))
    (image : Image) (regions : List Region) (r : Region) (e : String) :
    r ∈ regions → readtext (cropBbox r.bbox) = .error e →
    ∃ e', easyocrExtractTextE readtext image regions = .error e' := by
  induction regions with
  | nil =>
    intro hr _
    cases hr
  | cons r0 rest ih =>
    intro hr hfx
    rcases List.mem_cons.mp hr with h | h
    · subst h
      exact ⟨e, by simp [easyocrExtractTextE, hfx]⟩
    · match h0 : readtext (cropBbox r0.bbox) with
      | .error e0 => exact ⟨e0, by simp [easyocrExtractTextE, h0]⟩
      | .ok dets =>
        obtain ⟨e', he'⟩ := ih h hfx
        exact ⟨e', by simp [easyocrExtractTextE, h0, he']⟩

theorem tesseractExtractTextE_error (image_to_data : Image → Except String (List TessWord))
    (image : Image) (regions : List Region) (r : Region) (e : String) :
    r ∈ regions → image_to_data (cropBbox r.bbox) = .error e →
    ∃ e', tesseractExtractTextE image_to_data image regions = .error e' := by
  induction regions with
  | nil =>
    intro hr _
    cases hr
  | cons r0 rest ih =>
    intro hr hfx
    rcases List.mem_cons.mp hr with h | h
    · subst h
      exact ⟨e, by simp [tesseractExtractTextE, hfx]⟩
    · match h0 : image_to_data (cropBbox r0.bbox) with
      | .error e0 => exact ⟨e0, by simp [tesseractExtractTextE, h0]⟩
      | .ok ws =>
        obtain ⟨e', he'⟩ := ih h hfx
        exact ⟨e', by simp [tesseractExtractTextE, h0, he']⟩

theorem processBatch_abort {ρ : Type} (processDoc : Doc → Except String ρ)
    (pre : List Doc) (d : Doc) (post : List Doc) (e : String) :
    (∀ x ∈ pre, ∃ v, processDoc x = .ok v) → processDoc d = .error e →
    processBatch processDoc (pre ++ d :: post) = processBatch processDoc (pre ++ [d]) ∧
      (processBatch processDoc (pre ++ d :: post)).2 = some e ∧
      ((processBatch processDoc (pre ++ d :: post)).1).map Prod.fst = pre.map Doc.id := by
  induction pre with
  | nil =>
    intro _ hd
    refine ⟨?_, ?_, ?_⟩ <;> simp [processBatch, hd]
  | cons x pre' ih =>
    intro hpre hd
    obtain ⟨v, hv⟩ := hpre x (List.mem_cons_self x pre')
    obtain ⟨ih1, ih2, ih3⟩ := ih (fun y hy => hpre y (List.mem_cons_of_mem x hy)) hd
    refine ⟨?_, ?_, ?_⟩
    · simp [processBatch, hv, ih1]
    · simp [processBatch, hv, ih2]
    · simp [processBatch, hv, ih3]


theorem detect_ids_spec (sorted : List Region) :
    (reassignIds 0 sorted).map (·.id) = List.range' 1 (reassignIds 0 sorted).length ∧
    ((reassignIds 0 sorted).map (·.id)).Nodup := by
  have h := reassignIds_map_id 0 sorted
  rw [reassignIds_length]
  refine ⟨h, ?_⟩
  rw [h]
  simp [List.nodup_range']

theorem easyocrProcessCropped_region_id (dets : List EasyDetection) (region_id : Nat) :
    (easyocrProcessCropped dets region_id).region_id = region_id := rfl

theorem easyocrExtractText_region_ids (readtext : Image → List EasyDetection) (image : Image)
    (regions : List Region) :
    (easyocrExtractText readtext image regions).map (·.region_id) = regions.map (·.id) := by
  simp [easyocrExtractText, List.map_map, Function.comp_def, easyocrProcessCropped_region_id]

/-! ## The claims -/

/-- C4: for every list of extracted fields, document-level accuracy is
    the mean match_score over fields flagged important; if no field is
    flagged important it is the mean over all fields; if the list is
    empty it is 0.0. -/
theorem C4_accuracy_fallbacks (extracted_fields : List ExtractedField) :
    calculateAccuracy extracted_fields =
      if extracted_fields = [] then 0
      else if extracted_fields.filter (·.is_important) = [] then meanScore extracted_fields
      else meanScore (extracted_fields.filter (·.is_important)) := by
  by_cases h1 : extracted_fields = []
  · simp [calculateAccuracy, h1]
  · by_cases h2 : extracted_fields.filter (·.is_important) = []
    · simp [calculateAccuracy, meanScore, h1, h2]
    · simp [calculateAccuracy, meanScore, h1, h2]

/-- C6: in full-text mode the result has empty extracted_fields,
    overall_accuracy 0.0, no layout regions (no detector is consulted:
    the function takes none), and ocr_results whose regions and
    full_text come from the engine's extraction over the single
    full-page pseudo-region. -/
theorem C6_full_text_mode (extract_text : Image → List Region → List OCRResult) (image : Image) :
    (processDocumentFullText extract_text image).extracted_fields = [] ∧
    (processDocumentFullText extract_text image).overall_accuracy = 0 ∧
    (processDocumentFullText extract_text image).layout_regions = [] ∧
    (processDocumentFullText extract_text image).ocr_results.regions =
      extract_text image [fullPageRegion image] ∧
    (processDocumentFullText extract_text image).ocr_results.full_text =
      joinSpace ((extract_text image [fullPageRegion image]).map (·.full_text)) :=
  ⟨rfl, rfl, rfl, rfl, rfl⟩

/-- C8: every layout detector returns regions whose ids form the
    contiguous duplicate-free sequence 1..N, for any model output
    (ids are reassigned in list order after the detector's sort). -/
theorem C8_detector_ids_contiguous :
    (∀ results : List YoloResult,
        (doclayoutDetect results).map (·.id) =
          List.range' 1 (doclayoutDetect results).length ∧
        ((doclayoutDetect results).map (·.id)).Nodup) ∧
    (∀ (pages : List (List DocTRWord)) (image : Image),
        (doctrDetect pages image).map (·.id) =
          List.range' 1 (doctrDetect pages image).length ∧
        ((doctrDetect pages image).map (·.id)).Nodup) ∧
    (∀ pages : List (List SuryaBboxObj),
        (suryaDetect pages).map (·.id) =
          List.range' 1 (suryaDetect pages).length ∧
        ((suryaDetect pages).map (·.id)).Nodup) := by
  refine ⟨fun results => ?_, fun pages image => ?_, fun pages => ?_⟩
  · simp only [doclayoutDetect]
    exact detect_ids_spec _
  · simp only [doctrDetect]
    exact detect_ids_spec _
  · simp only [suryaDetect]
    exact detect_ids_spec _

/-- C9: apply_scan_effects preserves the input image's dimensions for
    every preset string, and an unknown preset name behaves exactly as
    the medium preset. -/
theorem C9_scan_effects_dims (uniform : ℚ → ℚ → ℚ) (image : Image) (preset : String) :
    ((applyScanEffects uniform image preset).width = image.width ∧
     (applyScanEffects uniform image preset).height = image.height) ∧
    (preset ≠ "light" → preset ≠ "medium" → preset ≠ "heavy" →
      applyScanEffects uniform image preset = applyScanEffects uniform image "medium") := by
  constructor
  · constructor <;>
    · simp only [applyScanEffects, pilBlend, pilRotate, pilBrightness, pilContrast,
        pilGaussianBlur, addGaussianNoise]
      split <;> split <;> rfl
  · intro h1 h2 h3
    have hp : presetParams preset = presetParams "medium" := by
      have hb1 : (preset == "light") = false := beq_eq_false_iff_ne.mpr h1
      have hb2 : (preset == "medium") = false := beq_eq_false_iff_ne.mpr h2
      have hb3 : (preset == "heavy") = false := beq_eq_false_iff_ne.mpr h3
      simp [presetParams, scanPresets, List.lookup, hb1, hb2, hb3]
    simp only [applyScanEffects, hp]

/-- C9 witness: an unrecognized preset "bogus" on a Letter-size page. -/
theorem C9_scan_effects_dims_witness :
    ((applyScanEffects (fun a _ => a) ⟨816, 1056⟩ "bogus").width = 816 ∧
     (applyScanEffects (fun a _ => a) ⟨816, 1056⟩ "bogus").height = 1056) ∧
    applyScanEffects (fun a _ => a) ⟨816, 1056⟩ "bogus" =
      applyScanEffects (fun a _ => a) ⟨816, 1056⟩ "medium" :=
  ⟨(C9_scan_effects_dims (fun a _ => a) ⟨816, 1056⟩ "bogus").1,
   (C9_scan_effects_dims (fun a _ => a) ⟨816, 1056⟩ "bogus").2
     (by decide) (by decide) (by decide)⟩

/-- C10: full-text mode synthesizes the pseudo-region with id 0 (not 1),
    type "full_page", confidence 1.0 and a bbox spanning the whole
    image; for any engine honouring the region_id contract the emitted
    OCRResult carries region_id 0, and 0 never occurs in a detector's
    contiguous 1..N id sequence. -/
theorem C10_full_text_pseudo_region (extract_text : Image → List Region → List OCRResult)
    (image : Image)
    (hcontract : ∀ (img : Image) (regions : List Region),
      (extract_text img regions).map (·.region_id) = regions.map (·.id)) :
    fullPageRegion image =
      ⟨0, "full_page", 1, ⟨0, 0, (image.width : Int), (image.height : Int)⟩⟩ ∧
    (fullPageRegion image).id = 0 ∧
    ((processDocumentFullText extract_text image).ocr_results.regions.map (·.region_id)) = [0] ∧
    (∀ n : Nat, 0 ∉ List.range' 1 n) := by
  refine ⟨rfl, rfl, ?_, not_mem_range'_one⟩
  show (extract_text image [fullPageRegion image]).map (·.region_id) = [0]
  rw [hcontract]
  rfl

/-- C10 witness: the EasyOCR adapter over an empty model output on a
    Letter-size page. -/
theorem C10_full_text_pseudo_region_witness :
    fullPageRegion ⟨816, 1056⟩ = ⟨0, "full_page", 1, ⟨0, 0, 816, 1056⟩⟩ ∧
    (fullPageRegion ⟨816, 1056⟩).id = 0 ∧
    ((processDocumentFullText (easyocrExtractText fun _ => []) ⟨816, 1056⟩).ocr_results.regions.map
      (·.region_id)) = [0] ∧
    (∀ n : Nat, 0 ∉ List.range' 1 n) :=
  C10_full_text_pseudo_region (easyocrExtractText fun _ => []) ⟨816, 1056⟩
    (fun img regions => easyocrExtractText_region_ids (fun _ => []) img regions)

/-- C1 (amended): only the MinerU adapter degrades a raising per-region
    extraction to an empty OCRResult while still processing every
    region; the EasyOCR and Tesseract adapters propagate the first
    exception out of extract_text. -/
theorem C1_region_failure_handling :
    (∀ (two_step_extract : Image → Except String (List MinerUBlock)) (image : Image)
        (regions : List Region),
        (mineruExtractText two_step_extract image regions).length = regions.length) ∧
    (∀ (two_step_extract : Image → Except String (List MinerUBlock)) (image : Image)
        (regions : List Region) (i : Nat) (r : Region) (e : String),
        regions.get? i = some r → two_step_extract (cropBbox r.bbox) = .error e →
        (mineruExtractText two_step_extract image regions).get? i = some ⟨r.id, "", []⟩) ∧
    (∀ (readtext : Image → Except String (List EasyDetection)) (image : Image)
        (regions : List Region) (r : Region) (e : String),
        r ∈ regions → readtext (cropBbox r.bbox) = .error e →
        ∃ e2, easyocrExtractTextE readtext image regions = .error e2) ∧
    (∀ (image_to_data : Image → Except String (List TessWord)) (image : Image)
        (regions : List Region) (r : Region) (e : String),
        r ∈ regions → image_to_data (cropBbox r.bbox) = .error e →
        ∃ e2, tesseractExtractTextE image_to_data image regions = .error e2) := by
  refine ⟨?_, ?_, easyocrExtractTextE_error, tesseractExtractTextE_error⟩
  · intro tse image regions
    simp [mineruExtractText]
  · intro tse image regions i r e hget herr
    simp only [mineruExtractText, List.get?_map, hget]
    simp [mineruProcessCropped, herr]

/-- C1 witness: a backend raising on every region; MinerU still yields
    one empty result per region, EasyOCR and Tesseract abort. -/
theorem C1_region_failure_handling_witness :
    (mineruExtractText (fun _ => Except.error "model crashed") ⟨10, 10⟩
        [⟨1, "text", 1, ⟨0, 0, 5, 5⟩⟩, ⟨2, "text", 1, ⟨0, 0, 7, 7⟩⟩]).length = 2 ∧
    (mineruExtractText (fun _ => Except.error "model crashed") ⟨10, 10⟩
        [⟨1, "text", 1, ⟨0, 0, 5, 5⟩⟩, ⟨2, "text", 1, ⟨0, 0, 7, 7⟩⟩]).get? 0 =
      some ⟨1, "", []⟩ ∧
    (∃ e2, easyocrExtractTextE (fun _ => Except.error "model crashed") ⟨10, 10⟩
        [⟨1, "text", 1, ⟨0, 0, 5, 5⟩⟩] = Except.error e2) ∧
    (∃ e2, tesseractExtractTextE (fun _ => Except.error "model crashed") ⟨10, 10⟩
        [⟨1, "text", 1, ⟨0, 0, 5, 5⟩⟩] = Except.error e2) :=
  ⟨C1_region_failure_handling.1 (fun _ => Except.error "model crashed") ⟨10, 10⟩ _,
   C1_region_failure_handling.2.1 (fun _ => Except.error "model crashed") ⟨10, 10⟩ _
     0 ⟨1, "text", 1, ⟨0, 0, 5, 5⟩⟩ "model crashed" rfl rfl,
   C1_region_failure_handling.2.2.1 (fun _ => Except.error "model crashed") ⟨10, 10⟩ _
     ⟨1, "text", 1, ⟨0, 0, 5, 5⟩⟩ "model crashed" (List.mem_singleton.mpr rfl) rfl,
   C1_region_failure_handling.2.2.2 (fun _ => Except.error "model crashed") ⟨10, 10⟩ _
     ⟨1, "text", 1, ⟨0, 0, 5, 5⟩⟩ "model crashed" (List.mem_singleton.mpr rfl) rfl⟩

/-- C1 counterexample: the claim as stated fails for the EasyOCR
    adapter: when the model raises on the first of two regions,
    extract_text propagates the exception instead of yielding an empty
    OCRResult and continuing with the second region. -/
theorem C1_region_failure_handling_counterexample :
    easyocrExtractTextE (fun _ => Except.error "model crashed") ⟨10, 10⟩
        [⟨1, "text", 1, ⟨0, 0, 5, 5⟩⟩, ⟨2, "text", 1, ⟨0, 0, 7, 7⟩⟩] =
      Except.error "model crashed" := rfl

/-- C2: in a batch, the first document whose processing raises aborts
    the rest: the run ends failed with that exception's text, exactly
    the documents before the failing one are persisted, and the
    documents after it are never consulted. -/
theorem C2_batch_abort {ρ : Type} (processDoc : Doc → Except String ρ)
    (pre : List Doc) (d : Doc) (post : List Doc) (e : String)
    (hpre : ∀ x ∈ pre, ∃ v, processDoc x = .ok v) (hd : processDoc d = .error e) :
    (runTestBackground processDoc (pre ++ d :: post)).1 = RunStatus.failed e ∧
    ((runTestBackground processDoc (pre ++ d :: post)).2).map Prod.fst = pre.map Doc.id ∧
    runTestBackground processDoc (pre ++ d :: post) =
      runTestBackground processDoc (pre ++ [d]) := by
  obtain ⟨h1, h2, h3⟩ := processBatch_abort processDoc pre d post e hpre hd
  refine ⟨?_, ?_, ?_⟩
  · simp [runTestBackground, h2]
  · simp [runTestBackground, h2, h3]
  · simp [runTestBackground, h1]

/-- C2 witness: a three-document batch whose second document fails. -/
theorem C2_batch_abort_witness :
    (runTestBackground demoProcessDoc ([⟨"doc1"⟩] ++ ⟨"doc2"⟩ :: [⟨"doc3"⟩])).1 =
      RunStatus.failed "detection failed" ∧
    ((runTestBackground demoProcessDoc ([⟨"doc1"⟩] ++ ⟨"doc2"⟩ :: [⟨"doc3"⟩])).2).map Prod.fst =
      [Doc.mk "doc1"].map Doc.id ∧
    runTestBackground demoProcessDoc ([⟨"doc1"⟩] ++ ⟨"doc2"⟩ :: [⟨"doc3"⟩]) =
      runTestBackground demoProcessDoc ([⟨"doc1"⟩] ++ [⟨"doc2"⟩]) :=
  C2_batch_abort demoProcessDoc [⟨"doc1"⟩] ⟨"doc2"⟩ [⟨"doc3"⟩] "detection failed"
    (by
      intro x hx
      rw [List.mem_singleton] at hx
      subst hx
      exact ⟨"doc1", rfl⟩)
    rfl

/-- C7 (amended): for the EasyOCR, Tesseract, TrOCR, MinerU, Surya and
    PaddleOCR adapters, every OCRResult's full_text equals the
    space-joined concatenation of its lines' texts in emission order;
    the GOT-OCR adapter is excluded. -/
theorem C7_full_text_is_space_joined_lines :
    (∀ (dets : List EasyDetection) (region_id : Nat),
        (easyocrProcessCropped dets region_id).full_text =
          joinSpace ((easyocrProcessCropped dets region_id).lines.map (·.text))) ∧
    (∀ (words : List TessWord) (region_id : Nat),
        (tesseractProcessCropped words region_id).full_text =
          joinSpace ((tesseractProcessCropped words region_id).lines.map (·.text))) ∧
    (∀ (recognize : Image → String) (lineRegions : List (Nat × Nat)) (image : Image)
        (region_id : Nat),
        (trocrProcessCropped recognize lineRegions image region_id).full_text =
          joinSpace
            ((trocrProcessCropped recognize lineRegions image region_id).lines.map (·.text))) ∧
    (∀ (blocks : Except String (List MinerUBlock)) (image : Image) (region_id : Nat),
        (mineruProcessCropped blocks image region_id).full_text =
          joinSpace ((mineruProcessCropped blocks image region_id).lines.map (·.text))) ∧
    (∀ (pages : List (List SuryaTextLine)) (region_id : Nat),
        (suryaProcessCropped pages region_id).full_text =
          joinSpace ((suryaProcessCropped pages region_id).lines.map (·.text))) ∧
    (∀ (results : List PaddleResult) (region_id : Nat),
        (paddleProcessCropped results region_id).full_text =
          joinSpace ((paddleProcessCropped results region_id).lines.map (·.text))) :=
  ⟨easyocrProcessCropped_join, tesseractProcessCropped_join, trocrProcessCropped_join,
   mineruProcessCropped_join, suryaProcessCropped_join, paddleProcessCropped_join⟩

/-- C7 counterexample: the GOT-OCR adapter violates the claim: a decoded
    two-line output keeps its newline in full_text, which therefore
    differs from the space-joined line texts. -/
theorem C7_full_text_is_space_joined_lines_counterexample :
    (gotOcrProcessCropped (fun _ => "a\nb") ⟨4, 4⟩ 1).full_text = "a\nb" ∧
    joinSpace ((gotOcrProcessCropped (fun _ => "a\nb") ⟨4, 4⟩ 1).lines.map (·.text)) = "a b" ∧
    (gotOcrProcessCropped (fun _ => "a\nb") ⟨4, 4⟩ 1).full_text ≠
      joinSpace ((gotOcrProcessCropped (fun _ => "a\nb") ⟨4, 4⟩ 1).lines.map (·.text)) := by
  refine ⟨rfl, rfl, ?_⟩
  decide

/-- C3 (amended): for every expected field, the Matcher scores each
    line and each result's full_text case-insensitively and binds the
    field to the first-encountered candidate attaining the maximum
    score, provided that maximum is strictly positive; when every
    candidate scores 0.0 the field keeps the loop's initial empty
    extracted value and 0.0 confidence. -/
theorem C3_matcher_first_strict_max (expected_values : List (String × String))
    (ocr_results : List OCRResult) (i : Nat) (n v : String)
    (h : expected_values.get? i = some (n, v)) :
    ∃ f : ExtractedField, (matchFields expected_values ocr_results).get? i = some f ∧
      f.field_name = n ∧ f.expected_value = v ∧ f.is_important = true ∧
      f.match_score = maxScore v ocr_results ∧
      (0 < maxScore v ocr_results →
        ∃ j c, (candidatesOf ocr_results).get? j = some c ∧
          fieldScore v c.1 = maxScore v ocr_results ∧
          (∀ k c2, k < j → (candidatesOf ocr_results).get? k = some c2 →
            fieldScore v c2.1 < maxScore v ocr_results) ∧
          f.extracted_value = c.1 ∧ f.confidence = c.2) ∧
      (maxScore v ocr_results = 0 → f.extracted_value = "" ∧ f.confidence = 0) := by
  refine ⟨⟨n, v, (matchOne v ocr_results).bestMatch, (matchOne v ocr_results).bestConfidence,
    (matchOne v ocr_results).bestScore, true⟩, ?_, rfl, rfl, rfl, ?_, ?_, ?_⟩
  · simp only [matchFields, List.get?_map, h]
    rfl
  · show (matchOne v ocr_results).bestScore = maxScore v ocr_results
    rw [matchOne_eq_foldl]
    exact foldl_considerCand_bestScore v (candidatesOf ocr_results) ⟨"", 0, 0⟩
  · intro hpos
    have hlt : (⟨"", 0, 0⟩ : BestState).bestScore <
        ((candidatesOf ocr_results).map (fun c => fieldScore v c.1)).foldl max
          (⟨"", 0, 0⟩ : BestState).bestScore := hpos
    obtain ⟨j, c, hget, hscore, hbefore, hfold⟩ :=
      foldl_considerCand_found v (candidatesOf ocr_results) ⟨"", 0, 0⟩ hlt
    refine ⟨j, c, hget, hscore, hbefore, ?_, ?_⟩
    · show (matchOne v ocr_results).bestMatch = c.1
      rw [matchOne_eq_foldl, hfold]
    · show (matchOne v ocr_results).bestConfidence = c.2
      rw [matchOne_eq_foldl, hfold]
  · intro hzero
    have hle : ∀ c ∈ candidatesOf ocr_results,
        fieldScore v c.1 ≤ (⟨"", 0, 0⟩ : BestState).bestScore := by
      intro c hc
      have hm := mem_le_foldl_max ((candidatesOf ocr_results).map (fun c => fieldScore v c.1)) 0
        (fieldScore v c.1) (List.mem_map_of_mem _ hc)
      rw [show ((candidatesOf ocr_results).map (fun c => fieldScore v c.1)).foldl max 0 =
        maxScore v ocr_results from rfl, hzero] at hm
      exact hm
    have hstay := foldl_considerCand_stay v (candidatesOf ocr_results) ⟨"", 0, 0⟩ hle
    constructor
    · show (matchOne v ocr_results).bestMatch = ""
      rw [matchOne_eq_foldl, hstay]
    · show (matchOne v ocr_results).bestConfidence = 0
      rw [matchOne_eq_foldl, hstay]

/-- C3 counterexample: with expected value "a" and the single OCR line
    "b", every candidate ties at the maximum score 0.0, yet the field
    binds the empty string rather than the first-encountered candidate
    "b" that the claim promises. -/
theorem C3_matcher_first_strict_max_counterexample :
    candidatesOf [zeroScoreResult] = [("b", 1 / 2), ("b", 1 / 2)] ∧
    fieldScore "a" "b" = 0 ∧
    (matchFields [("f", "a")] [zeroScoreResult]).map (·.extracted_value) = [""] ∧
    (matchFields [("f", "a")] [zeroScoreResult]).map (·.extracted_value) ≠ ["b"] := by
  have h1 : fieldScore "a" "b" = 2 * ((0 : Nat) : ℚ) / ((2 : Nat) : ℚ) := rfl
  have hsc : fieldScore "a" "b" = 0 := by
    rw [h1]
    norm_num
  have hmap : (matchFields [("f", "a")] [zeroScoreResult]).map (·.extracted_value) = [""] := by
    simp [matchFields, matchOne, zeroScoreResult, considerCand, hsc]
  refine ⟨?_, hsc, hmap, ?_⟩
  · show candidatesOf [zeroScoreResult] = [("b", 1 / 2), ("b", 1 / 2)]
    simp [candidatesOf, zeroScoreResult, avgConfidence]
  · rw [hmap]
    decide

/-- C3 witness: expected value "abc" with a single exactly-matching OCR
    line of confidence 0.9. -/
theorem C3_matcher_first_strict_max_witness :
    ∃ f : ExtractedField, (matchFields [("f", "abc")] [exactMatchResult]).get? 0 = some f ∧
      f.field_name = "f" ∧ f.expected_value = "abc" ∧ f.is_important = true ∧
      f.match_score = maxScore "abc" [exactMatchResult] ∧
      (0 < maxScore "abc" [exactMatchResult] →
        ∃ j c, (candidatesOf [exactMatchResult]).get? j = some c ∧
          fieldScore "abc" c.1 = maxScore "abc" [exactMatchResult] ∧
          (∀ k c2, k < j → (candidatesOf [exactMatchResult]).get? k = some c2 →
            fieldScore "abc" c2.1 < maxScore "abc" [exactMatchResult]) ∧
          f.extracted_value = c.1 ∧ f.confidence = c.2) ∧
      (maxScore "abc" [exactMatchResult] = 0 → f.extracted_value = "" ∧ f.confidence = 0) :=
  C3_matcher_first_strict_max [("f", "abc")] [exactMatchResult] 0 "f" "abc" rfl

/-- C5 (amended): the Synthetic Document Generator consults the
    caller-supplied override list first, then the field-type-keyed
    value pool, then the legacy name-substring fallback; the override
    list, not the field-type pool, takes precedence when both apply. -/
theorem C5_value_priority :
    (∀ (choice : List String → String) (field_name : String) (opts : List String)
        (field_type : Option String), opts ≠ [] →
        getSyntheticValue choice field_name (some opts) field_type = choice opts) ∧
    (∀ (choice : List String → String) (field_name : String) (ft : String)
        (pool : List String), fieldTypeData.lookup ft = some pool → ft ≠ "" →
        getSyntheticValue choice field_name none (some ft) = choice pool ∧
        getSyntheticValue choice field_name (some []) (some ft) = choice pool) ∧
    (∀ (choice : List String → String) (field_name : String) (ft : String),
        fieldTypeData.lookup ft = none →
        getSyntheticValue choice field_name none (some ft) =
          getSyntheticValue choice field_name none none) ∧
    (∀ (choice : List String → String) (field_name : String),
        getSyntheticValue choice field_name none none =
          match legacyLookup (pyLower field_name) with
          | some values => choice values
          | none => choice ((defaultSyntheticData.lookup "default").getD [])) := by
  refine ⟨?_, ?_, ?_, ?_⟩
  · intro choice fn opts ft hne
    simp [getSyntheticValue, hne]
  · intro choice fn ft pool hpool hne
    constructor <;> simp [getSyntheticValue, getSyntheticValueTyped, hpool, hne]
  · intro choice fn ft hnone
    by_cases hft : ft = ""
    · simp [getSyntheticValue, getSyntheticValueTyped, hft]
    · simp [getSyntheticValue, getSyntheticValueTyped, hnone, hft]
  · intro choice fn
    simp [getSyntheticValue, getSyntheticValueTyped]

/-- C5 counterexample: with both an override list and a pooled field
    type present, the chosen value comes from the override list and is
    not a member of the field-type pool, refuting the claimed
    pool-over-override precedence. -/
theorem C5_value_priority_counterexample :
    getSyntheticValue (fun l => l.headD "") "case_number" (some ["OVERRIDE"]) (some "full_name") =
      "OVERRIDE" ∧
    (fieldTypeData.lookup "full_name").isSome = true ∧
    "OVERRIDE" ∉ (fieldTypeData.lookup "full_name").getD [] := by
  refine ⟨?_, ?_, ?_⟩ <;> decide

/-- C5 witness: the three priority levels exercised concretely. -/
theorem C5_value_priority_witness :
    getSyntheticValue (fun l => l.headD "") "x" (some ["A", "B"]) (some "full_name") = "A" ∧
    getSyntheticValue (fun l => l.headD "") "x" none (some "full_name") =
      (fun l : List String => l.headD "") ((fieldTypeData.lookup "full_name").getD []) ∧
    getSyntheticValue (fun l => l.headD "") "x" none (some "no_such_type") =
      getSyntheticValue (fun l => l.headD "") "x" none none :=
  ⟨C5_value_priority.1 (fun l => l.headD "") "x" ["A", "B"] (some "full_name") (by decide),
   (C5_value_priority.2.1 (fun l => l.headD "") "x" "full_name"
      ((fieldTypeData.lookup "full_name").getD []) rfl (by decide)).1,
   C5_value_priority.2.2.1 (fun l => l.headD "") "x" "no_such_type" rfl⟩

end JForms
